import Mathlib

/-!
Shallow embedding of `src/archive/generate_journal.py`, a script that turns a
JSON journal (collection name, dated log entries, image attachments) into a
sequence of layout blocks handed to a pagination engine, with a page-number
stamping pass at the end.  Python floats are modelled as exact rationals,
Python strings as `String`/`List Char`, the filesystem and the image library
as an explicit environment record, and Python exceptions as `Except`.
-/

/-- Layout constant: one inch in points (`reportlab.lib.units.inch`). -/
def inch : ℚ := 72

/-- Layout constant: the width of a US letter page in points (`letter[0]`). -/
def letterWidth : ℚ := 612

/-- Layout constant: `available_width = letter[0] - 2 * inch` (line 141). -/
def available_width : ℚ := letterWidth - 2 * inch

/-- Python `text.replace('\n', '<br/>')` (line 102): single-character pattern,
so leftmost non-overlapping replacement is a per-character map. -/
def replace_newline : List Char → List Char
  | [] => []
  | c :: rest => (if c = '\n' then ['<', 'b', 'r', '/', '>'] else [c]) ++ replace_newline rest

/-- Python `text.replace('&', '&amp;')` (line 104): single-character pattern,
so leftmost non-overlapping replacement is a per-character map. -/
def replace_amp : List Char → List Char
  | [] => []
  | c :: rest => (if c = '&' then ['&', 'a', 'm', 'p', ';'] else [c]) ++ replace_amp rest

/-- Python `text.replace('<br/>', '<br/>')` (line 105): leftmost
non-overlapping replacement of the five-character sequence by itself. -/
def replace_br : List Char → List Char
  | '<' :: 'b' :: 'r' :: '/' :: '>' :: rest => '<' :: 'b' :: 'r' :: '/' :: '>' :: replace_br rest
  | c :: rest => c :: replace_br rest
  | [] => []

/-- Python `text.replace('< ', '&lt; ')` (line 105): leftmost non-overlapping
replacement of the two-character sequence by the escaped form. -/
def replace_lt_space : List Char → List Char
  | '<' :: ' ' :: rest => '&' :: 'l' :: 't' :: ';' :: ' ' :: replace_lt_space rest
  | c :: rest => c :: replace_lt_space rest
  | [] => []

/-- Embedding of `process_text` (lines 99-106) on character lists: the four
`str.replace` calls in source order. -/
def process_text_list (l : List Char) : List Char :=
  replace_lt_space (replace_br (replace_amp (replace_newline l)))

/-- Embedding of `process_text` (lines 99-106) on strings. -/
def process_text (s : String) : String :=
  ⟨process_text_list s.data⟩

/-- Whether a character list contains the two-character sequence of a
less-than sign followed by a space (the pattern of line 105). -/
def has_lt_space : List Char → Bool
  | [] => false
  | [_] => false
  | c :: d :: rest => (c = '<' && d = ' ') || has_lt_space (d :: rest)

/-- An attachment record from the JSON input: `{ type, filename }`.  The
`filename` key may be absent (`attachment.get('filename')` then yields
`None`), modelled by `Option`. -/
structure Attachment where
  type : String
  filename : Option String
deriving DecidableEq, Repr

/-- A log entry record from the JSON input.  Every field may be absent. -/
structure LogEntry where
  id : Option Nat
  date : Option String
  text : Option String
  attachments : Option (List Attachment)
deriving DecidableEq, Repr

/-- The parsed JSON document: `{ name?, logs? }`. -/
structure JournalData where
  name : Option String
  logs : Option (List LogEntry)
deriving DecidableEq, Repr

/-- The effectful surroundings of the script: whether a path exists on disk
(`img_path.exists()`, line 172) and what the image library reports as the
native pixel size of the file at a path, or the message of the exception it
raises (`Image(str(img_path))`, line 174). -/
structure Env where
  fileExists : String → Bool
  imageSize : String → Except String (Nat × Nat)

/-- Resolution of an attachment path (line 170):
`Path(json_path).parent / 'sawyer' / 'attachments' / filename`. -/
def resolve_attachment_path (jsonDir filename : String) : String :=
  jsonDir ++ "/sawyer/attachments/" ++ filename

/-- The warning printed by the `except` branch (line 189). -/
def warn_msg (filename cause : String) : String :=
  "Warning: Could not load image " ++ filename ++ ": " ++ cause

/-- A placed image: the `drawWidth`/`drawHeight` set on a reportlab `Image`. -/
structure ImgBlock where
  drawWidth : ℚ
  drawHeight : ℚ
deriving DecidableEq, Repr

/-- Embedding of the scaling arithmetic of lines 176-185: target width is 40
percent of the available width, target height follows the native aspect
ratio, and a height above `3 * inch` forces a uniform rescale down to that
cap. -/
def scale_image (w h : Nat) : ImgBlock :=
  let max_img_width : ℚ := available_width * 0.4
  let max_img_height : ℚ := 3 * inch
  let aspect : ℚ := (h : ℚ) / (w : ℚ)
  let dW : ℚ := max_img_width
  let dH : ℚ := max_img_width * aspect
  if dH > max_img_height then ⟨max_img_height / aspect, max_img_height⟩ else ⟨dW, dH⟩

/-- One iteration of the attachment loop (lines 167-189).  A non-image
attachment contributes nothing.  An image attachment without a `filename` key
reproduces the uncaught `TypeError` of `Path / None` at line 170.  A missing
file is skipped with no output at all (the `if` of line 172 has no `else`).
An image library failure is caught and turned into a warning, as is the
`ZeroDivisionError` of `aspect` when the native width is zero (line 179);
both land in the same `except` branch. -/
def process_attachment (env : Env) (jsonDir : String) (att : Attachment) :
    Except String (List ImgBlock × List String) :=
  if att.type = "image" then
    match att.filename with
    | none => Except.error "TypeError: unsupported operand type for /: PosixPath and NoneType"
    | some filename =>
      let imgPath := resolve_attachment_path jsonDir filename
      if env.fileExists imgPath then
        match env.imageSize imgPath with
        | Except.error e => Except.ok ([], [warn_msg filename e])
        | Except.ok (w, h) =>
          if w = 0 then Except.ok ([], [warn_msg filename "ZeroDivisionError: division by zero"])
          else Except.ok ([scale_image w h], [])
      else Except.ok ([], [])
  else Except.ok ([], [])

/-- The whole attachment loop of one entry (lines 165-189), accumulating the
placed images and the printed warnings in order; an uncaught exception
aborts. -/
def process_attachments (env : Env) (jsonDir : String) :
    List Attachment → Except String (List ImgBlock × List String)
  | [] => Except.ok ([], [])
  | att :: rest => do
    let (i1, w1) ← process_attachment env jsonDir att
    let (i2, w2) ← process_attachments env jsonDir rest
    Except.ok (i1 ++ i2, w1 ++ w2)

/-- An element of the right-hand image column: a placed image or a spacer. -/
inductive ImgElem where
  | image (img : ImgBlock)
  | spacer (w h : ℚ)
deriving DecidableEq, Repr

/-- A layout block appended to the `story` list. -/
inductive Block where
  | spacer (w h : ℚ)
  | paragraph (text : String) (style : String)
  | dateTable (dateText : String) (colWidth : ℚ)
  | contentTable (textPara : String) (leftWidth : ℚ) (right : List ImgElem) (rightWidth : ℚ)
  | hrDivider
deriving DecidableEq, Repr

/-- The right-column stacking of lines 202-209: each image followed by a
10-point spacer, with the final spacer popped off. -/
def stack_images (imgs : List ImgBlock) : List ImgElem :=
  ((imgs.map fun i => [ImgElem.image i, ImgElem.spacer 1 10]).flatten).dropLast

/-- The blocks of one log entry (lines 144-231 of the loop body): date box and
15-point spacer, then either a two-column table (text at 55 percent of the
available width on the left, stacked images at 45 percent on the right) when
at least one image was resolved, or the text paragraph alone at full width;
then the 25-point spacer and the divider rule.  The `id` field is read into a
local (line 145) and never used. -/
def build_entry_blocks (env : Env) (jsonDir : String) (idx : Nat) (log : LogEntry) :
    Except String (List Block × List String) :=
  let _entry_id := log.id.getD idx
  let date := log.date.getD "No date"
  let text := log.text.getD ""
  let attachments := log.attachments.getD []
  do
    let (images, warns) ← process_attachments env jsonDir attachments
    let textPara := process_text text
    let middle :=
      if images.isEmpty then [Block.paragraph textPara "body"]
      else [Block.contentTable textPara (available_width * 0.55)
              (stack_images images) (available_width * 0.45)]
    Except.ok ([Block.dateTable date available_width, Block.spacer 1 15] ++ middle ++
      [Block.spacer 1 25, Block.hrDivider], warns)

/-- The entry loop (line 144, `enumerate(logs, 1)`), threading the 1-based
index and concatenating blocks and warnings in input order. -/
def build_entries_from (env : Env) (jsonDir : String) (idx : Nat) :
    List LogEntry → Except String (List Block × List String)
  | [] => Except.ok ([], [])
  | log :: rest => do
    let (bs, ws) ← build_entry_blocks env jsonDir idx log
    let (bs2, ws2) ← build_entries_from env jsonDir (idx + 1) rest
    Except.ok (bs ++ bs2, ws ++ ws2)

/-- The title blocks of lines 136-138. -/
def title_blocks (notebookName : String) : List Block :=
  [Block.spacer 1 (0.5 * inch), Block.paragraph notebookName "title",
   Block.spacer 1 (0.3 * inch)]

/-- The story construction of `create_journal_pdf` (lines 116-231): default
the collection name to `Journal` and the entry list to empty, emit the title
blocks, then every entry in input order. -/
def build_story (env : Env) (jsonDir : String) (data : JournalData) :
    Except String (List Block × List String) :=
  let notebook_name := data.name.getD "Journal"
  let logs := data.logs.getD []
  do
    let (bs, ws) ← build_entries_from env jsonDir 1 logs
    Except.ok (title_blocks notebook_name ++ bs, ws)

/-- A drawing operation recorded on a canvas page. -/
inductive DrawOp where
  | setFont (font : String) (size : ℚ)
  | setFillColor (color : String)
  | drawCentredString (x y : ℚ) (text : String)
  | content (tag : String)
deriving DecidableEq, Repr

/-- Embedding of `draw_page_number` (lines 44-48): an 8-point Helvetica page
number in light gray, centred horizontally, half an inch above the bottom
edge.  The page count argument is received but not drawn. -/
def draw_page_number (pageNum : Nat) (_pageCount : Nat) : List DrawOp :=
  [DrawOp.setFont "Helvetica" 8, DrawOp.setFillColor "#666666",
   DrawOp.drawCentredString (letterWidth / 2) (0.5 * inch) (toString pageNum)]

/-- Embedding of the `MinimalCanvas` state (lines 25-42): `pages` is the
buffer filled by `showPage`, `current` the page being composed, and
`finalized` the pages actually emitted to the output file by the base-class
`showPage` calls inside `save`. -/
structure MinimalCanvas where
  pages : List (List DrawOp)
  current : List DrawOp
  finalized : List (List DrawOp)
deriving DecidableEq, Repr

/-- The canvas of a freshly opened document. -/
def MinimalCanvas.init : MinimalCanvas :=
  ⟨[], [], []⟩

/-- Embedding of the overridden `showPage` (lines 32-34): buffer the current
page state and start a new page; nothing is emitted. -/
def MinimalCanvas.showPage (c : MinimalCanvas) : MinimalCanvas :=
  { c with pages := c.pages ++ [c.current], current := [] }

/-- Embedding of the overridden `save` (lines 36-42): for each buffered page,
in order, restore it, draw its 1-based page number, and emit it through the
base-class `showPage`. -/
def MinimalCanvas.save (c : MinimalCanvas) : MinimalCanvas :=
  { c with finalized :=
      c.finalized ++ c.pages.enum.map fun ip => ip.2 ++ draw_page_number (ip.1 + 1) c.pages.length }

/-- An event in the life of the canvas: a drawing operation issued by the
layout engine while composing the current page, a page break, or the final
`save`. -/
inductive CanvasEvent where
  | draw (op : DrawOp)
  | showPage
  | save
deriving DecidableEq, Repr

/-- Transition of the canvas state on one event. -/
def canvas_step (c : MinimalCanvas) : CanvasEvent → MinimalCanvas
  | CanvasEvent.draw op => { c with current := c.current ++ [op] }
  | CanvasEvent.showPage => c.showPage
  | CanvasEvent.save => c.save

/-- The canvas state after a sequence of events, starting from a fresh
canvas. -/
def run_canvas (evs : List CanvasEvent) : MinimalCanvas :=
  evs.foldl canvas_step MinimalCanvas.init

/-- C1: for an image with positive native dimensions, the placed dimensions
follow the source arithmetic: target width is 40 percent of the available
content width and target height is that width times the native height over
width ratio, unless that height exceeds the 3-inch cap, in which case both
are rescaled uniformly so the height equals the cap; in every case the
placed width over height ratio equals the native one and the placed height
never exceeds the cap. -/
theorem image_scaling_correct (w h : Nat) (hw : 0 < w) (hh : 0 < h) :
    (scale_image w h).drawWidth / (scale_image w h).drawHeight = (w : ℚ) / (h : ℚ) ∧
    (scale_image w h).drawHeight ≤ 3 * inch ∧
    (available_width * 0.4 * ((h : ℚ) / (w : ℚ)) ≤ 3 * inch →
      scale_image w h =
        ⟨available_width * 0.4, available_width * 0.4 * ((h : ℚ) / (w : ℚ))⟩) ∧
    (3 * inch < available_width * 0.4 * ((h : ℚ) / (w : ℚ)) →
      (scale_image w h).drawHeight = 3 * inch ∧
      (scale_image w h).drawWidth = 3 * inch / ((h : ℚ) / (w : ℚ))) := by
  have hw2 : (0 : ℚ) < w := by exact_mod_cast hw
  have hh2 : (0 : ℚ) < h := by exact_mod_cast hh
  have hi : (0 : ℚ) < inch := by norm_num [inch]
  have haw : (0 : ℚ) < available_width := by norm_num [available_width, letterWidth, inch]
  simp only [scale_image]
  split
  · refine ⟨?_, le_refl _, fun hle => absurd (by assumption) (not_lt.mpr hle), fun _ => ⟨rfl, rfl⟩⟩
    dsimp only
    field_simp
    ring
  · refine ⟨?_, le_of_not_lt (by assumption), fun _ => rfl,
      fun hgt => absurd hgt (by simp only [not_lt]; exact le_of_not_lt (by assumption))⟩
    dsimp only
    field_simp
    ring

/-- Witness for C1: a native 800 by 400 image is placed uncapped with the
native 2 to 1 ratio. -/
theorem image_scaling_correct_witness :
    (scale_image 800 400).drawWidth / (scale_image 800 400).drawHeight =
      ((800 : ℕ) : ℚ) / ((400 : ℕ) : ℚ) ∧
    (scale_image 800 400).drawHeight ≤ 3 * inch ∧
    (available_width * 0.4 * (((400 : ℕ) : ℚ) / ((800 : ℕ) : ℚ)) ≤ 3 * inch →
      scale_image 800 400 =
        ⟨available_width * 0.4, available_width * 0.4 * (((400 : ℕ) : ℚ) / ((800 : ℕ) : ℚ))⟩) ∧
    (3 * inch < available_width * 0.4 * (((400 : ℕ) : ℚ) / ((800 : ℕ) : ℚ)) →
      (scale_image 800 400).drawHeight = 3 * inch ∧
      (scale_image 800 400).drawWidth = 3 * inch / (((400 : ℕ) : ℚ) / ((800 : ℕ) : ℚ))) :=
  image_scaling_correct 800 400 (by decide) (by decide)

/-- Helper: replacing newlines never leaves a newline behind. -/
theorem replace_newline_no_newline (l : List Char) : '\n' ∉ replace_newline l := by
  induction l with
  | nil => simp [replace_newline]
  | cons c rest ih =>
    by_cases hc : c = '\n' <;> simp [replace_newline, hc, ih]
    exact fun hne => absurd hne.symm hc

/-- Helper: replacing newlines introduces no ampersand. -/
theorem replace_newline_no_amp (l : List Char) (h : '&' ∉ l) : '&' ∉ replace_newline l := by
  induction l with
  | nil => simp [replace_newline]
  | cons c rest ih =>
    simp only [List.mem_cons, not_or] at h
    by_cases hc : c = '\n' <;> simp [replace_newline, hc, ih h.2]
    exact h.1

/-- Helper: a character list whose tail is inspected still lacks the
less-than-space pair. -/
theorem has_lt_space_tail (c : Char) (rest : List Char)
    (h : has_lt_space (c :: rest) = false) : has_lt_space rest = false := by
  cases rest with
  | nil => rfl
  | cons d ds =>
    simp only [has_lt_space, Bool.or_eq_false_iff] at h
    exact h.2

/-- Helper: the head of the newline-replaced list is the original head, with
a newline turned into a less-than sign. -/
theorem replace_newline_head (c : Char) (rest : List Char) :
    ∃ ds, replace_newline (c :: rest) = (if c = '\n' then '<' else c) :: ds := by
  by_cases hc : c = '\n' <;> simp [replace_newline, hc]

/-- Helper: replacing newlines introduces no less-than-space pair. -/
theorem replace_newline_no_lt_space (l : List Char) (h : has_lt_space l = false) :
    has_lt_space (replace_newline l) = false := by
  induction l with
  | nil => rfl
  | cons c rest ih =>
    have hrest := ih (has_lt_space_tail c rest h)
    by_cases hc : c = '\n'
    · subst hc
      show has_lt_space ('<' :: 'b' :: 'r' :: '/' :: '>' :: replace_newline rest) = false
      cases hr : replace_newline rest with
      | nil => simp [has_lt_space]
      | cons d ds =>
        rw [hr] at hrest
        simp [has_lt_space, hrest]
    · show has_lt_space ((if c = '\n' then ['<', 'b', 'r', '/', '>'] else [c]) ++
        replace_newline rest) = false
      rw [if_neg hc]
      cases hrest2 : rest with
      | nil => simp [replace_newline, has_lt_space]
      | cons r0 rs =>
        obtain ⟨ds, hd⟩ := replace_newline_head r0 rs
        rw [hrest2] at hrest h
        rw [hd] at hrest ⊢
        have hpair : (c = '<' && (if r0 = '\n' then '<' else r0) = ' ') = false := by
          by_cases hc2 : c = '<'
          · by_cases hr0 : r0 = '\n'
            · simp [hc2, hr0]
            · simp only [hc2, if_neg hr0]
              by_cases hsp : r0 = ' '
              · exfalso
                rw [hc2, hsp] at h
                simp [has_lt_space] at h
              · simp [hsp]
          · simp [hc2]
        simp only [List.singleton_append, has_lt_space, hpair, Bool.false_or]
        exact hrest

/-- Helper: a list without newlines is unchanged by the newline
replacement. -/
theorem replace_newline_of_no_newline (l : List Char) (h : '\n' ∉ l) :
    replace_newline l = l := by
  induction l with
  | nil => rfl
  | cons c rest ih =>
    simp only [List.mem_cons, not_or] at h
    have : c ≠ '\n' := fun hc => h.1 hc.symm
    simp [replace_newline, this, ih h.2]

/-- Helper: a list without ampersands is unchanged by the ampersand
replacement. -/
theorem replace_amp_of_no_amp (l : List Char) (h : '&' ∉ l) : replace_amp l = l := by
  induction l with
  | nil => rfl
  | cons c rest ih =>
    simp only [List.mem_cons, not_or] at h
    have : c ≠ '&' := fun hc => h.1 hc.symm
    simp [replace_amp, this, ih h.2]

/-- Helper: replacing the escaped line break sequence by itself changes
nothing. -/
theorem replace_br_id (l : List Char) : replace_br l = l := by
  induction l using replace_br.induct <;> simp_all [replace_br]

/-- Helper: a list without a less-than-space pair is unchanged by the
less-than escape. -/
theorem replace_lt_space_of_no_lt_space (l : List Char) (h : has_lt_space l = false) :
    replace_lt_space l = l := by
  induction l using replace_lt_space.induct with
  | case1 rest ih => simp [has_lt_space] at h
  | case2 c rest hside ih =>
    have h2 := ih (has_lt_space_tail c rest h)
    rw [replace_lt_space]
    · rw [h2]
    exact hside
  | case3 => rfl

/-- C2 counterexample: text normalization is not idempotent on every string,
because the ampersand introduced by escaping is escaped again: one pass turns
the one-character ampersand string into the escaped entity, a second pass
escapes the leading ampersand of that entity once more. -/
theorem process_text_not_idempotent :
    process_text (process_text "&") ≠ process_text "&" := by
  decide

/-- C2 amended: text normalization is idempotent on every input string that
contains no ampersand and no less-than-space pair (in particular, an
already-escaped line-break sequence passes through unchanged on a second
application); on other inputs a second application double-escapes the
ampersands. -/
theorem process_text_idempotent_on_clean (s : String)
    (h1 : '&' ∉ s.data) (h2 : has_lt_space s.data = false) :
    process_text (process_text s) = process_text s := by
  have hn := replace_newline_no_newline s.data
  have ha := replace_newline_no_amp s.data h1
  have hl := replace_newline_no_lt_space s.data h2
  have hinner : process_text s = ⟨replace_newline s.data⟩ := by
    show (⟨process_text_list s.data⟩ : String) = _
    unfold process_text_list
    rw [replace_amp_of_no_amp _ ha, replace_br_id, replace_lt_space_of_no_lt_space _ hl]
  rw [hinner]
  show (⟨process_text_list (replace_newline s.data)⟩ : String) = _
  unfold process_text_list
  rw [replace_newline_of_no_newline _ hn, replace_amp_of_no_amp _ ha, replace_br_id,
    replace_lt_space_of_no_lt_space _ hl]

/-- Witness for the amended C2: a body text with an embedded newline and no
ampersand normalizes to the same string under one or two passes. -/
theorem process_text_idempotent_on_clean_witness :
    ('&' ∉ "Hello\nWorld".data ∧ has_lt_space "Hello\nWorld".data = false) ∧
    process_text (process_text "Hello\nWorld") = process_text "Hello\nWorld" :=
  ⟨⟨by decide, by decide⟩,
   process_text_idempotent_on_clean "Hello\nWorld" (by decide) (by decide)⟩

/-- Helper: the attachment loop processes a list head first. -/
theorem process_attachments_cons (env : Env) (jd : String) (a : Attachment)
    (rest : List Attachment) :
    process_attachments env jd (a :: rest) = (do
      let (i1, w1) ← process_attachment env jd a
      let (i2, w2) ← process_attachments env jd rest
      Except.ok (i1 ++ i2, w1 ++ w2)) := rfl

/-- Helper: an attachment that contributes no image and no warning leaves the
loop result unchanged. -/
theorem process_attachments_cons_of_empty (env : Env) (jd : String) (a : Attachment)
    (l : List Attachment) (ha : process_attachment env jd a = Except.ok ([], [])) :
    process_attachments env jd (a :: l) = process_attachments env jd l := by
  rw [process_attachments_cons, ha]
  cases hl : process_attachments env jd l with
  | error e => rfl
  | ok p => rfl

/-- Helper: an image attachment whose resolved file does not exist on disk is
processed to no image and no warning. -/
theorem process_attachment_missing_file (env : Env) (jd : String) (att : Attachment)
    (f : String) (htype : att.type = "image") (hf : att.filename = some f)
    (hex : env.fileExists (resolve_attachment_path jd f) = false) :
    process_attachment env jd att = Except.ok ([], []) := by
  unfold process_attachment
  rw [htype, hf]
  simp [hex]

/-- Helper: the attachment loop is a homomorphism on list append: images and
warnings concatenate, and an abort in either part aborts the whole. -/
theorem process_attachments_append (env : Env) (jd : String) (l1 l2 : List Attachment) :
    process_attachments env jd (l1 ++ l2) = (do
      let (i1, w1) ← process_attachments env jd l1
      let (i2, w2) ← process_attachments env jd l2
      Except.ok (i1 ++ i2, w1 ++ w2)) := by
  induction l1 with
  | nil =>
    simp only [List.nil_append, process_attachments]
    cases h2 : process_attachments env jd l2 with
    | error e => rfl
    | ok p => rfl
  | cons a l1 ih =>
    simp only [List.cons_append, process_attachments, List.append_eq, ih]
    cases ha : process_attachment env jd a with
    | error e => rfl
    | ok p =>
      obtain ⟨i1, w1⟩ := p
      cases h1 : process_attachments env jd l1 with
      | error e => rfl
      | ok q =>
        obtain ⟨x1, y1⟩ := q
        cases h2 : process_attachments env jd l2 with
        | error e => rfl
        | ok r =>
          obtain ⟨z1, z2⟩ := r
          show Except.ok (i1 ++ (x1 ++ z1), w1 ++ (y1 ++ z2)) =
            Except.ok ((i1 ++ x1) ++ z1, (w1 ++ y1) ++ z2)
          simp [List.append_assoc]

/-- An environment in which no file exists. -/
def env_no_files : Env :=
  ⟨fun _ => false, fun _ => Except.error "file is missing"⟩

/-- An environment in which every file exists but the image library fails to
open any of them. -/
def env_bad_images : Env :=
  ⟨fun _ => true, fun _ => Except.error "cannot identify image file"⟩

/-- An environment in which every file exists and opens as an 800 by 400
image. -/
def env_small_images : Env :=
  ⟨fun _ => true, fun _ => Except.ok (800, 400)⟩

/-- C3 counterexample: an image attachment whose resolved path does not exist
emits no warning at all — the existence check of line 172 has no `else`
branch, so the claimed warning is never printed.  At this concrete input the
warning list is empty. -/
theorem missing_file_emits_no_warning :
    ¬ ∃ (w : String) (imgs : List ImgBlock) (warns : List String),
      process_attachments env_no_files "journal" [⟨"image", some "pic.png"⟩] =
        Except.ok (imgs, warns) ∧ w ∈ warns := by
  rintro ⟨w, imgs, warns, heq, hmem⟩
  rw [show process_attachments env_no_files "journal" [⟨"image", some "pic.png"⟩] =
      Except.ok (([] : List ImgBlock), ([] : List String)) from rfl] at heq
  injection heq with h2
  injection h2 with h3 h4
  rw [← h4] at hmem
  simp at hmem

/-- C3 amended: an image attachment whose resolved file does not exist is
silently skipped — no warning, no image block, no exception — and the
processing of sibling attachments is unaffected: the loop result equals the
result on the list with that attachment removed. -/
theorem missing_file_attachment_skipped (env : Env) (jd : String)
    (pre post : List Attachment) (att : Attachment) (f : String)
    (htype : att.type = "image") (hf : att.filename = some f)
    (hex : env.fileExists (resolve_attachment_path jd f) = false) :
    process_attachments env jd (pre ++ att :: post) =
      process_attachments env jd (pre ++ post) := by
  have hatt := process_attachment_missing_file env jd att f htype hf hex
  rw [process_attachments_append, process_attachments_append]
  simp only [process_attachments, List.append_eq, hatt]
  cases hp : process_attachments env jd pre with
  | error e2 => rfl
  | ok p =>
    obtain ⟨i1, w1⟩ := p
    cases hq : process_attachments env jd post with
    | error e2 => rfl
    | ok q => rfl

/-- Witness for the amended C3: in an environment without files, a lone image
attachment is processed exactly like an empty attachment list. -/
theorem missing_file_attachment_skipped_witness :
    ((⟨"image", some "pic.png"⟩ : Attachment).type = "image" ∧
     (⟨"image", some "pic.png"⟩ : Attachment).filename = some "pic.png" ∧
     env_no_files.fileExists (resolve_attachment_path "journal" "pic.png") = false) ∧
    process_attachments env_no_files "journal"
        ([] ++ (⟨"image", some "pic.png"⟩ : Attachment) :: []) =
      process_attachments env_no_files "journal" ([] ++ []) :=
  ⟨⟨rfl, rfl, rfl⟩,
   missing_file_attachment_skipped env_no_files "journal" [] []
     ⟨"image", some "pic.png"⟩ "pic.png" rfl rfl rfl⟩

/-- C6: an image attachment whose file exists but fails to open is handled by
the `except` branch: the loop does not abort, a warning naming the filename
and the cause is appended in place, the image is omitted, and the siblings
before and after are processed exactly as without it. -/
theorem unreadable_image_warned (env : Env) (jd : String)
    (pre post : List Attachment) (att : Attachment) (f e : String)
    (htype : att.type = "image") (hf : att.filename = some f)
    (hex : env.fileExists (resolve_attachment_path jd f) = true)
    (herr : env.imageSize (resolve_attachment_path jd f) = Except.error e) :
    process_attachments env jd (pre ++ att :: post) = (do
      let (i1, w1) ← process_attachments env jd pre
      let (i2, w2) ← process_attachments env jd post
      Except.ok (i1 ++ i2, w1 ++ warn_msg f e :: w2)) := by
  have hatt : process_attachment env jd att = Except.ok ([], [warn_msg f e]) := by
    unfold process_attachment
    rw [htype, hf]
    simp [hex, herr]
  rw [process_attachments_append]
  simp only [process_attachments, List.append_eq, hatt]
  cases hp : process_attachments env jd pre with
  | error e2 => rfl
  | ok p =>
    obtain ⟨i1, w1⟩ := p
    cases hq : process_attachments env jd post with
    | error e2 => rfl
    | ok q => rfl

/-- Witness for C6: one unreadable image between two non-image attachments
produces exactly one warning and no image, and the loop finishes. -/
theorem unreadable_image_warned_witness :
    ((⟨"image", some "pic.png"⟩ : Attachment).type = "image" ∧
     (⟨"image", some "pic.png"⟩ : Attachment).filename = some "pic.png" ∧
     env_bad_images.fileExists (resolve_attachment_path "journal" "pic.png") = true ∧
     env_bad_images.imageSize (resolve_attachment_path "journal" "pic.png") =
       Except.error "cannot identify image file") ∧
    process_attachments env_bad_images "journal"
        ([⟨"audio", some "a.mp3"⟩] ++ (⟨"image", some "pic.png"⟩ : Attachment) ::
          [⟨"audio", some "b.mp3"⟩]) = (do
      let (i1, w1) ← process_attachments env_bad_images "journal" [⟨"audio", some "a.mp3"⟩]
      let (i2, w2) ← process_attachments env_bad_images "journal" [⟨"audio", some "b.mp3"⟩]
      Except.ok (i1 ++ i2, w1 ++ warn_msg "pic.png" "cannot identify image file" :: w2)) :=
  ⟨⟨rfl, rfl, rfl, rfl⟩,
   unreadable_image_warned env_bad_images "journal"
     [⟨"audio", some "a.mp3"⟩] [⟨"audio", some "b.mp3"⟩]
     ⟨"image", some "pic.png"⟩ "pic.png" "cannot identify image file" rfl rfl rfl rfl⟩

/-- Projection of an image-column element back to its image, if any. -/
def img_elem_image : ImgElem → Option ImgBlock
  | ImgElem.image i => some i
  | ImgElem.spacer _ _ => none

/-- Helper: stacking a head image before a nonempty tail keeps its trailing
spacer, because the popped spacer is the one after the last image. -/
theorem stack_images_cons (i : ImgBlock) (rest : List ImgBlock) (h : rest ≠ []) :
    stack_images (i :: rest) =
      ImgElem.image i :: ImgElem.spacer 1 10 :: stack_images rest := by
  unfold stack_images
  simp only [List.map_cons, List.flatten_cons]
  rw [List.dropLast_append_of_ne_nil]
  · rfl
  · cases rest with
    | nil => exact absurd rfl h
    | cons j rest2 => simp

/-- Helper: the stacked right column lists exactly the resolved images, in
order. -/
theorem stack_images_images (imgs : List ImgBlock) :
    (stack_images imgs).filterMap img_elem_image = imgs := by
  induction imgs with
  | nil => rfl
  | cons i rest ih =>
    cases rest with
    | nil => rfl
    | cons j rest2 =>
      rw [stack_images_cons i (j :: rest2) (by simp)]
      simp only [List.filterMap_cons, img_elem_image]
      rw [ih]

/-- Helper: the blocks of one entry, as a function of the resolved images and
warnings of its attachment loop. -/
theorem build_entry_blocks_eq (env : Env) (jd : String) (idx : Nat) (log : LogEntry)
    (imgs : List ImgBlock) (warns : List String)
    (h : process_attachments env jd (log.attachments.getD []) = Except.ok (imgs, warns)) :
    build_entry_blocks env jd idx log = Except.ok (
      [Block.dateTable (log.date.getD "No date") available_width, Block.spacer 1 15] ++
      (if imgs.isEmpty then [Block.paragraph (process_text (log.text.getD "")) "body"]
       else [Block.contentTable (process_text (log.text.getD "")) (available_width * 0.55)
               (stack_images imgs) (available_width * 0.45)]) ++
      [Block.spacer 1 25, Block.hrDivider], warns) := by
  simp only [build_entry_blocks, h]
  rfl

/-- Helper: an aborting attachment loop aborts the whole entry. -/
theorem build_entry_blocks_error (env : Env) (jd : String) (idx : Nat) (log : LogEntry)
    (e : String) (h : process_attachments env jd (log.attachments.getD []) = Except.error e) :
    build_entry_blocks env jd idx log = Except.error e := by
  simp only [build_entry_blocks, h]
  rfl

/-- C4: when no image was resolved for an entry, its body text is emitted as
a single full-width paragraph; when at least one image was resolved, a
two-column table is emitted with the text on the left at 55 percent of the
available content width and the images stacked on the right at 45 percent,
in attachment input order. -/
theorem entry_layout_selection (env : Env) (jd : String) (idx : Nat) (log : LogEntry)
    (imgs : List ImgBlock) (warns : List String)
    (h : process_attachments env jd (log.attachments.getD []) = Except.ok (imgs, warns)) :
    (imgs = [] → build_entry_blocks env jd idx log = Except.ok (
      [Block.dateTable (log.date.getD "No date") available_width, Block.spacer 1 15,
       Block.paragraph (process_text (log.text.getD "")) "body",
       Block.spacer 1 25, Block.hrDivider], warns)) ∧
    (imgs ≠ [] → build_entry_blocks env jd idx log = Except.ok (
      [Block.dateTable (log.date.getD "No date") available_width, Block.spacer 1 15,
       Block.contentTable (process_text (log.text.getD "")) (available_width * 0.55)
         (stack_images imgs) (available_width * 0.45),
       Block.spacer 1 25, Block.hrDivider], warns) ∧
      (stack_images imgs).filterMap img_elem_image = imgs) := by
  constructor
  · intro hempty
    subst hempty
    rw [build_entry_blocks_eq env jd idx log [] warns h]
    rfl
  · intro hne
    refine ⟨?_, stack_images_images imgs⟩
    rw [build_entry_blocks_eq env jd idx log imgs warns h]
    cases imgs with
    | nil => exact absurd rfl hne
    | cons i rest => rfl

/-- A sample log entry carrying one image attachment. -/
def log_with_image : LogEntry :=
  ⟨none, some "2024-01-01", some "Hello", some [⟨"image", some "pic.png"⟩]⟩

/-- Witness for C4: an entry with one resolvable 800 by 400 image renders as
the two-column table. -/
theorem entry_layout_selection_witness :
    process_attachments env_small_images "journal" (log_with_image.attachments.getD []) =
      Except.ok ([scale_image 800 400], []) ∧
    (([scale_image 800 400] : List ImgBlock) ≠ [] →
      build_entry_blocks env_small_images "journal" 1 log_with_image = Except.ok (
        [Block.dateTable (log_with_image.date.getD "No date") available_width,
         Block.spacer 1 15,
         Block.contentTable (process_text (log_with_image.text.getD ""))
           (available_width * 0.55) (stack_images [scale_image 800 400])
           (available_width * 0.45),
         Block.spacer 1 25, Block.hrDivider], []) ∧
      (stack_images [scale_image 800 400]).filterMap img_elem_image =
        [scale_image 800 400]) :=
  ⟨rfl, (entry_layout_selection env_small_images "journal" 1 log_with_image
    [scale_image 800 400] [] rfl).2⟩

/-- Recognizer for the boxed date header block of an entry. -/
def is_date_header : Block → Bool
  | Block.dateTable _ _ => true
  | _ => false

/-- Recognizer for the horizontal divider rule of an entry. -/
def is_divider : Block → Bool
  | Block.hrDivider => true
  | _ => false

/-- Helper: a successful entry always produces exactly five blocks: the date
header, a spacer, one middle block that is neither a header nor a divider,
a spacer, and the divider. -/
theorem build_entry_blocks_shape (env : Env) (jd : String) (idx : Nat) (log : LogEntry)
    (bs1 : List Block) (ws1 : List String)
    (h : build_entry_blocks env jd idx log = Except.ok (bs1, ws1)) :
    ∃ middle, is_date_header middle = false ∧ is_divider middle = false ∧
      bs1 = [Block.dateTable (log.date.getD "No date") available_width, Block.spacer 1 15,
             middle, Block.spacer 1 25, Block.hrDivider] := by
  cases hpa : process_attachments env jd (log.attachments.getD []) with
  | error e =>
    rw [build_entry_blocks_error env jd idx log e hpa] at h
    exact Except.noConfusion h
  | ok p =>
    obtain ⟨imgs, warns⟩ := p
    rw [build_entry_blocks_eq env jd idx log imgs warns hpa] at h
    injection h with h2
    injection h2 with hb hw
    cases imgs with
    | nil =>
      refine ⟨Block.paragraph (process_text (log.text.getD "")) "body", rfl, rfl, ?_⟩
      rw [← hb]
      rfl
    | cons i rest =>
      refine ⟨Block.contentTable (process_text (log.text.getD "")) (available_width * 0.55)
        (stack_images (i :: rest)) (available_width * 0.45), rfl, rfl, ?_⟩
      rw [← hb]
      rfl

/-- Helper: over the entry loop, the subsequence of date headers and dividers
is exactly one date header followed by one divider per entry, in input order,
the divider list has one divider per entry, and the final block of a
nonempty entry list is the divider of the last entry. -/
theorem build_entries_filter (env : Env) (jd : String) (logs : List LogEntry) (idx : Nat)
    (bs : List Block) (ws : List String)
    (h : build_entries_from env jd idx logs = Except.ok (bs, ws)) :
    bs.filter (fun b => is_date_header b || is_divider b) =
      (logs.map fun log =>
        [Block.dateTable (log.date.getD "No date") available_width, Block.hrDivider]).flatten ∧
    (bs.filter is_divider).length = logs.length ∧
    (logs ≠ [] → bs.getLast? = some Block.hrDivider) := by
  induction logs generalizing idx bs ws with
  | nil =>
    simp only [build_entries_from] at h
    injection h with h2
    injection h2 with hb hw
    subst hb
    exact ⟨rfl, rfl, fun hne => absurd rfl hne⟩
  | cons log rest ih =>
    cases he : build_entry_blocks env jd idx log with
    | error e =>
      simp only [build_entries_from, he, bind, Except.bind] at h
      exact Except.noConfusion h
    | ok p =>
      obtain ⟨bs1, ws1⟩ := p
      cases hr : build_entries_from env jd (idx + 1) rest with
      | error e =>
        simp only [build_entries_from, he, hr, bind, Except.bind] at h
        exact Except.noConfusion h
      | ok q =>
        obtain ⟨bs2, ws2⟩ := q
        simp only [build_entries_from, he, hr, bind, Except.bind] at h
        injection h with h2
        injection h2 with hb hw
        subst hb
        obtain ⟨hA, hB, hC⟩ := ih (idx + 1) bs2 ws2 hr
        obtain ⟨middle, hm1, hm2, hshape⟩ :=
          build_entry_blocks_shape env jd idx log bs1 ws1 he
        subst hshape
        refine ⟨?_, ?_, ?_⟩
        · rw [List.filter_append, hA]
          simp only [is_date_header, is_divider] at hm1 hm2
          simp [List.filter, is_date_header, is_divider, hm1, hm2]
        · rw [List.filter_append, List.length_append, hB]
          simp only [is_divider] at hm2
          simp [List.filter, is_divider, hm2]
          omega
        · intro _
          rw [List.getLast?_append]
          cases rest with
          | nil =>
            simp only [build_entries_from] at hr
            injection hr with hr2
            injection hr2 with hb2 hw2
            subst hb2
            rfl
          | cons log2 rest2 =>
            rw [hC (by simp)]
            rfl

/-- C5: in every successfully generated story, the subsequence of date
headers and dividers is exactly one date header (carrying that entry's date)
followed by one divider per entry, in input order; the number of dividers
equals the number of entries regardless of entry content; and when there is
at least one entry the final block is the divider emitted after the last
entry. -/
theorem story_headers_and_dividers (env : Env) (jd : String) (data : JournalData)
    (blocks : List Block) (warns : List String)
    (h : build_story env jd data = Except.ok (blocks, warns)) :
    blocks.filter (fun b => is_date_header b || is_divider b) =
      ((data.logs.getD []).map fun log =>
        [Block.dateTable (log.date.getD "No date") available_width, Block.hrDivider]).flatten ∧
    (blocks.filter is_divider).length = (data.logs.getD []).length ∧
    (data.logs.getD [] ≠ [] → blocks.getLast? = some Block.hrDivider) := by
  cases hb : build_entries_from env jd 1 (data.logs.getD []) with
  | error e =>
    simp only [build_story, hb, bind, Except.bind] at h
    exact Except.noConfusion h
  | ok p =>
    obtain ⟨bs, ws⟩ := p
    simp only [build_story, hb, bind, Except.bind] at h
    injection h with h2
    injection h2 with hblk hwarn
    subst hblk
    obtain ⟨hA, hB, hC⟩ := build_entries_filter env jd (data.logs.getD []) 1 bs ws hb
    refine ⟨?_, ?_, ?_⟩
    · rw [List.filter_append, hA]
      rw [show (title_blocks (data.name.getD "Journal")).filter
        (fun b => is_date_header b || is_divider b) = [] from rfl]
      rw [List.nil_append]
    · rw [List.filter_append, List.length_append, hB]
      rw [show (title_blocks (data.name.getD "Journal")).filter is_divider = [] from rfl]
      simp
    · intro hne
      rw [List.getLast?_append, hC hne]
      rfl

/-- A sample journal with two image-free entries, the second entirely empty. -/
def journal_sample : JournalData :=
  ⟨some "J", some [⟨none, some "2024-01-01", some "", none⟩, ⟨none, none, none, some []⟩]⟩

/-- The story blocks generated for `journal_sample`. -/
def story_blocks_sample : List Block :=
  title_blocks "J" ++
  [Block.dateTable "2024-01-01" available_width, Block.spacer 1 15,
   Block.paragraph (process_text "") "body", Block.spacer 1 25, Block.hrDivider] ++
  [Block.dateTable "No date" available_width, Block.spacer 1 15,
   Block.paragraph (process_text "") "body", Block.spacer 1 25, Block.hrDivider]

/-- Witness for C5: the two-entry sample, with one empty entry, yields one
header and one divider per entry in order and ends with a divider. -/
theorem story_headers_and_dividers_witness :
    story_blocks_sample.filter (fun b => is_date_header b || is_divider b) =
      ((journal_sample.logs.getD []).map fun log =>
        [Block.dateTable (log.date.getD "No date") available_width, Block.hrDivider]).flatten ∧
    (story_blocks_sample.filter is_divider).length = (journal_sample.logs.getD []).length ∧
    (journal_sample.logs.getD [] ≠ [] → story_blocks_sample.getLast? = some Block.hrDivider) :=
  story_headers_and_dividers env_no_files "journal" journal_sample story_blocks_sample [] rfl

/-- C7: every missing input field is silently substituted by its documented
default — collection name by the placeholder name, entry list by the empty
list, entry date by the default date string, entry text by the empty string,
entry id by the 1-based position — and the substitution never raises: the
build behaves exactly as if the default value had been present, and the
all-defaults document builds successfully. -/
theorem missing_fields_defaulted (env : Env) (jd : String) (name : Option String)
    (logs : Option (List LogEntry)) (idx : Nat) (log : LogEntry) :
    build_story env jd ⟨none, logs⟩ = build_story env jd ⟨some "Journal", logs⟩ ∧
    build_story env jd ⟨name, none⟩ = build_story env jd ⟨name, some []⟩ ∧
    build_entry_blocks env jd idx { log with date := none } =
      build_entry_blocks env jd idx { log with date := some "No date" } ∧
    build_entry_blocks env jd idx { log with text := none } =
      build_entry_blocks env jd idx { log with text := some "" } ∧
    build_entry_blocks env jd idx { log with id := none } =
      build_entry_blocks env jd idx { log with id := some idx } ∧
    build_story env jd ⟨none, none⟩ = Except.ok (title_blocks "Journal", []) :=
  ⟨rfl, rfl, rfl, rfl, rfl, rfl⟩

/-- Helper: as long as no save event occurs, no page is finalized: the
overridden `showPage` only buffers. -/
theorem foldl_no_save_finalized (evs : List CanvasEvent) (c : MinimalCanvas)
    (h : CanvasEvent.save ∉ evs) :
    (evs.foldl canvas_step c).finalized = c.finalized := by
  induction evs generalizing c with
  | nil => rfl
  | cons e evs ih =>
    simp only [List.mem_cons, not_or] at h
    rw [List.foldl_cons, ih _ h.2]
    cases e with
    | draw op => rfl
    | showPage => rfl
    | save => exact absurd rfl h.1

/-- C8: during the page-collecting phase (any event sequence without a save)
nothing is finalized, and the single save that ends the run stamps every
buffered page, in order, with its 1-based page number drawn centred at the
fixed half-inch offset above the bottom edge. -/
theorem page_numbers_stamped_after_collection (evs : List CanvasEvent)
    (h : CanvasEvent.save ∉ evs) :
    (run_canvas evs).finalized = [] ∧
    (run_canvas (evs ++ [CanvasEvent.save])).finalized =
      (run_canvas evs).pages.enum.map
        (fun ip => ip.2 ++ draw_page_number (ip.1 + 1) (run_canvas evs).pages.length) := by
  have h1 : (run_canvas evs).finalized = [] :=
    foldl_no_save_finalized evs MinimalCanvas.init h
  refine ⟨h1, ?_⟩
  show ((evs ++ [CanvasEvent.save]).foldl canvas_step MinimalCanvas.init).finalized = _
  rw [List.foldl_append]
  show ((run_canvas evs).save).finalized = _
  unfold MinimalCanvas.save
  rw [h1]
  rw [List.nil_append]

/-- Witness for C8: a three-event run composing two pages finalizes nothing,
and the subsequent save stamps both pages with their numbers. -/
theorem page_numbers_stamped_after_collection_witness :
    (run_canvas [CanvasEvent.draw (DrawOp.content "title page"), CanvasEvent.showPage,
      CanvasEvent.showPage]).finalized = [] ∧
    (run_canvas ([CanvasEvent.draw (DrawOp.content "title page"), CanvasEvent.showPage,
      CanvasEvent.showPage] ++ [CanvasEvent.save])).finalized =
      (run_canvas [CanvasEvent.draw (DrawOp.content "title page"), CanvasEvent.showPage,
        CanvasEvent.showPage]).pages.enum.map
        (fun ip => ip.2 ++ draw_page_number (ip.1 + 1)
          (run_canvas [CanvasEvent.draw (DrawOp.content "title page"), CanvasEvent.showPage,
            CanvasEvent.showPage]).pages.length) :=
  page_numbers_stamped_after_collection
    [CanvasEvent.draw (DrawOp.content "title page"), CanvasEvent.showPage,
      CanvasEvent.showPage] (by decide)

/-- Removal of every `id` field of a document, leaving all else intact. -/
def strip_ids (data : JournalData) : JournalData :=
  { data with logs := data.logs.map (List.map fun log => { log with id := none }) }

/-- Helper: one entry builds the same blocks whatever its `id` field holds,
because the local read of the field (line 145) is never used. -/
theorem build_entry_blocks_id_irrelevant (env : Env) (jd : String) (idx : Nat)
    (log : LogEntry) :
    build_entry_blocks env jd idx { log with id := none } =
      build_entry_blocks env jd idx log := rfl

/-- Helper: the entry loop builds the same blocks on two entry lists that
agree after their `id` fields are removed. -/
theorem build_entries_from_id_irrelevant (env : Env) (jd : String)
    (l1 l2 : List LogEntry)
    (h : l1.map (fun log => { log with id := none }) =
      l2.map (fun log => { log with id := none })) :
    ∀ idx, build_entries_from env jd idx l1 = build_entries_from env jd idx l2 := by
  induction l1 generalizing l2 with
  | nil =>
    cases l2 with
    | nil => intro idx; rfl
    | cons b l2 => simp at h
  | cons a l1 ih =>
    cases l2 with
    | nil => simp at h
    | cons b l2 =>
      simp only [List.map_cons, List.cons.injEq] at h
      intro idx
      have hhead : build_entry_blocks env jd idx a = build_entry_blocks env jd idx b := by
        rw [← build_entry_blocks_id_irrelevant env jd idx a, h.1,
          build_entry_blocks_id_irrelevant env jd idx b]
      simp only [build_entries_from, hhead, ih l2 h.2 (idx + 1)]

/-- C9: the generated story does not depend on the presence or values of the
entries' `id` fields: two documents that agree after stripping ids generate
identical block sequences and warnings. -/
theorem story_independent_of_ids (env : Env) (jd : String) (d1 d2 : JournalData)
    (h : strip_ids d1 = strip_ids d2) :
    build_story env jd d1 = build_story env jd d2 := by
  obtain ⟨n1, l1⟩ := d1
  obtain ⟨n2, l2⟩ := d2
  simp only [strip_ids, JournalData.mk.injEq] at h
  obtain ⟨hn, hl⟩ := h
  subst hn
  cases l1 with
  | none =>
    cases l2 with
    | none => rfl
    | some ys => simp at hl
  | some xs =>
    cases l2 with
    | none => simp at hl
    | some ys =>
      have hl2 : xs.map (fun log => { log with id := none }) =
          ys.map (fun log => { log with id := none }) := by
        simpa using hl
      show build_story env jd ⟨n1, some xs⟩ = build_story env jd ⟨n1, some ys⟩
      simp only [build_story, Option.getD_some,
        build_entries_from_id_irrelevant env jd xs ys hl2 1]

/-- Witness for C9: two one-entry documents differing only in the presence
and value of the entry id generate the same story. -/
theorem story_independent_of_ids_witness :
    strip_ids ⟨some "J", some [⟨some 7, some "2024-01-01", some "x", none⟩]⟩ =
      strip_ids ⟨some "J", some [⟨none, some "2024-01-01", some "x", none⟩]⟩ ∧
    build_story env_no_files "journal"
        ⟨some "J", some [⟨some 7, some "2024-01-01", some "x", none⟩]⟩ =
      build_story env_no_files "journal"
        ⟨some "J", some [⟨none, some "2024-01-01", some "x", none⟩]⟩ :=
  ⟨rfl, story_independent_of_ids env_no_files "journal"
    ⟨some "J", some [⟨some 7, some "2024-01-01", some "x", none⟩]⟩
    ⟨some "J", some [⟨none, some "2024-01-01", some "x", none⟩]⟩ rfl⟩

/-- C10: an attachment of type image with no `filename` key is not skipped
like a missing or unreadable file: the path join of line 170 raises an
uncaught `TypeError` outside the `try` block, so the whole build aborts,
even though a readable image follows in the same entry. -/
theorem missing_filename_aborts :
    build_story env_small_images "journal"
      ⟨some "J", some [⟨none, some "2024-01-01", some "hello",
        some [⟨"image", none⟩, ⟨"image", some "ok.png"⟩]⟩]⟩ =
      Except.error "TypeError: unsupported operand type for /: PosixPath and NoneType" := rfl
